import Mathlib

/-!
Shallow embedding of the interaction-coordination core of the
fabric-canvas-kit repository: the HistoryManager (undo/redo engine over
serialized scene snapshots), the pan handlers of the InputManager
(spacebar-drag, mouse-wheel, two-finger touch) together with
ViewportManager.pan, and the debounced aggregate-change channel of the
EventManager.

Modelling conventions:
- The fabric canvas is modelled as a pair of a serialized scene (the JSON
  string produced by `toJSON` with `viewportTransform` deleted) and a
  viewport transform (six components).  `JSON.parse` and `JSON.stringify`
  round-trip the scene string and `loadFromJSON` installs the parsed
  scene, so `getCanvasState` returns the scene component and
  `restoreState` replaces it.
- Numbers occurring in viewport arithmetic are modelled as `Int`.
- `Date.now()` is passed in explicitly as a `Nat` timestamp.
- Debug logging (`console.log` guarded by `this.debug`) has no effect on
  the modelled state and is omitted.
- Event emission (`eventManager.emitHistoryChanged`) is modelled by
  returning the list of emitted payloads next to the new state.
-/

set_option autoImplicit false

namespace FabricKit

/-- Viewport transform: the six components `[a, b, c, d, e, f]` of the
fabric viewport matrix, where `(e, f)` is the translation. -/
structure ViewportTransform where
  a : Int
  b : Int
  c : Int
  d : Int
  e : Int
  f : Int
deriving DecidableEq, Repr

/-- The live canvas as seen by the HistoryManager: the serialized object
graph (excluding the viewport) and the viewport transform. -/
structure Canvas where
  scene : String
  viewport : ViewportTransform
deriving DecidableEq, Repr

/-- History state entry (`interface HistoryEntry`): canvas state as JSON
plus the timestamp of the state. -/
structure HistoryEntry where
  state : String
  timestamp : Nat
deriving DecidableEq, Repr

/-- Payload of the `history changed` event emitted through
`eventManager.emitHistoryChanged`. -/
structure HistoryChangedEvent where
  canUndo : Bool
  canRedo : Bool
deriving DecidableEq, Repr

/-- State of a `HistoryManager` instance: the canvas it operates on, the
two history stacks (most-recent-last, as JS arrays used with
`push`/`pop`/`shift`), the two reentrancy flags, the `enabled` flag and
the configured `maxSize`. -/
structure HistoryManager where
  canvas : Canvas
  undoStack : List HistoryEntry
  redoStack : List HistoryEntry
  isUndoing : Bool
  isRedoing : Bool
  enabled : Bool
  maxSize : Nat
deriving DecidableEq, Repr

namespace HistoryManager

/-- `canUndo()`: `this.undoStack.length > 1`. -/
def canUndo (m : HistoryManager) : Bool :=
  decide (1 < m.undoStack.length)

/-- `canRedo()`: `this.redoStack.length > 0`. -/
def canRedo (m : HistoryManager) : Bool :=
  decide (0 < m.redoStack.length)

/-- `getUndoStackSize()`. -/
def getUndoStackSize (m : HistoryManager) : Nat :=
  m.undoStack.length

/-- `getRedoStackSize()`. -/
def getRedoStackSize (m : HistoryManager) : Nat :=
  m.redoStack.length

/-- `isEnabled()`. -/
def isEnabled (m : HistoryManager) : Bool :=
  m.enabled

/-- `getCanvasState()`: `toJSON`, delete `viewportTransform`, stringify —
i.e. the serialized scene without the viewport. -/
def getCanvasState (m : HistoryManager) : String :=
  m.canvas.scene

/-- `restoreState(stateString)`: parse the string, capture the current
viewport transform, `loadFromJSON` the parsed scene, then restore the
captured viewport transform; the scene becomes the loaded one and the
viewport is preserved. -/
def restoreState (stateString : String) (m : HistoryManager) : HistoryManager :=
  { m with canvas := { scene := stateString, viewport := m.canvas.viewport } }

/-- `saveState()`: return unchanged if disabled; otherwise clear the redo
stack, push an entry holding the current canvas state, drop the front
entry (`shift`) if the stack now exceeds `maxSize`, and emit a
`history changed` event computed from the updated stacks. -/
def saveState (now : Nat) (m : HistoryManager) :
    HistoryManager × List HistoryChangedEvent :=
  if m.enabled then
    let entry : HistoryEntry := { state := getCanvasState m, timestamp := now }
    let pushed := m.undoStack ++ [entry]
    let limited := if m.maxSize < pushed.length then pushed.tail else pushed
    let m2 : HistoryManager := { m with redoStack := [], undoStack := limited }
    (m2, [{ canUndo := canUndo m2, canRedo := canRedo m2 }])
  else
    (m, [])

/-- `undo()`: no-op when `!canUndo()`; otherwise set `isUndoing`, push the
current serialized state onto the redo stack, pop the undo stack, restore
the new top when present, reset `isUndoing`, and emit `history changed`. -/
def undo (now : Nat) (m : HistoryManager) :
    HistoryManager × List HistoryChangedEvent :=
  if canUndo m then
    let m1 : HistoryManager := { m with isUndoing := true }
    let currentState := getCanvasState m1
    let m2 : HistoryManager :=
      { m1 with redoStack := m1.redoStack ++ [{ state := currentState, timestamp := now }] }
    let m3 : HistoryManager := { m2 with undoStack := m2.undoStack.dropLast }
    let m4 : HistoryManager :=
      match m3.undoStack.getLast? with
      | some previousEntry => restoreState previousEntry.state m3
      | none => m3
    let m5 : HistoryManager := { m4 with isUndoing := false }
    (m5, [{ canUndo := canUndo m5, canRedo := canRedo m5 }])
  else
    (m, [])

/-- `redo()`: no-op when `!canRedo()`; otherwise set `isRedoing`, pop the
redo stack, and when an entry was popped push the current serialized state
onto the undo stack (no size cap here) and restore the popped state; reset
`isRedoing` and emit `history changed`. -/
def redo (now : Nat) (m : HistoryManager) :
    HistoryManager × List HistoryChangedEvent :=
  if canRedo m then
    let m1 : HistoryManager := { m with isRedoing := true }
    let m4 : HistoryManager :=
      match m1.redoStack.getLast? with
      | some nextEntry =>
        let m2 : HistoryManager := { m1 with redoStack := m1.redoStack.dropLast }
        let currentState := getCanvasState m2
        let m3 : HistoryManager :=
          { m2 with undoStack := m2.undoStack ++ [{ state := currentState, timestamp := now }] }
        restoreState nextEntry.state m3
      | none => { m1 with redoStack := m1.redoStack.dropLast }
    let m5 : HistoryManager := { m4 with isRedoing := false }
    (m5, [{ canUndo := canUndo m5, canRedo := canRedo m5 }])
  else
    (m, [])

/-- `clearHistory()`: empty both stacks, call `saveState()` (which reseeds
one baseline entry only when tracking is enabled), then emit
`history changed {canUndo: false, canRedo: false}`. -/
def clearHistory (now : Nat) (m : HistoryManager) :
    HistoryManager × List HistoryChangedEvent :=
  let m1 : HistoryManager := { m with undoStack := [], redoStack := [] }
  let r := saveState now m1
  (r.1, r.2 ++ [{ canUndo := false, canRedo := false }])

/-- `enable()`. -/
def enable (m : HistoryManager) : HistoryManager :=
  { m with enabled := true }

/-- `disable()`. -/
def disable (m : HistoryManager) : HistoryManager :=
  { m with enabled := false }

/-- `destroy()`: `clearHistory()` first (while `enabled` still has its old
value), then set `enabled := false`.  The canvas `on` listeners installed
by `initialize` are not detached in the source. -/
def destroy (now : Nat) (m : HistoryManager) :
    HistoryManager × List HistoryChangedEvent :=
  let r := clearHistory now m
  ({ r.1 with enabled := false }, r.2)

/-- The canvas mutation listeners installed by `initialize` for
`object:added`, `object:removed` and `object:modified`: call `saveState()`
only when `!isUndoing && !isRedoing && enabled`. -/
def handleMutation (now : Nat) (m : HistoryManager) :
    HistoryManager × List HistoryChangedEvent :=
  if !m.isUndoing && !m.isRedoing && m.enabled then
    saveState now m
  else
    (m, [])

/-- The constructor: store the canvas and config (with `maxSize`
defaulting to 50), then run the initial `saveState()` of `initialize`. -/
def newManager (c : Canvas) (maxSize : Nat) (now : Nat) :
    HistoryManager × List HistoryChangedEvent :=
  saveState now
    { canvas := c
      undoStack := []
      redoStack := []
      isUndoing := false
      isRedoing := false
      enabled := true
      maxSize := maxSize }

end HistoryManager

/-- An externally triggerable operation on a `HistoryManager`, used to
describe the reachable states: a qualifying canvas mutation event, a
direct `saveState` call, `undo`, `redo`, `clearHistory`, `enable`,
`disable`, `destroy`. -/
inductive HistoryOp where
  | mutation (now : Nat)
  | save (now : Nat)
  | undoOp (now : Nat)
  | redoOp (now : Nat)
  | clear (now : Nat)
  | enableOp
  | disableOp
  | destroyOp (now : Nat)
deriving DecidableEq, Repr

/-- Apply one operation, discarding the emitted events. -/
def applyOp (op : HistoryOp) (m : HistoryManager) : HistoryManager :=
  match op with
  | .mutation now => (HistoryManager.handleMutation now m).1
  | .save now => (HistoryManager.saveState now m).1
  | .undoOp now => (HistoryManager.undo now m).1
  | .redoOp now => (HistoryManager.redo now m).1
  | .clear now => (HistoryManager.clearHistory now m).1
  | .enableOp => HistoryManager.enable m
  | .disableOp => HistoryManager.disable m
  | .destroyOp now => (HistoryManager.destroy now m).1

/-- Run a list of operations left to right. -/
def runOps (ops : List HistoryOp) (m : HistoryManager) : HistoryManager :=
  ops.foldl (fun acc op => applyOp op acc) m

/-- The pan-relevant state of an `InputManager` instance together with the
shared canvas viewport transform it mutates.  The source keeps a single
`lastPosX`/`lastPosY` pair of fields on the instance, read and written by
both the spacebar mouse-move handler and the mouse-wheel handler, and a
separate `touchPanLastX`/`touchPanLastY` pair for the touch handler. -/
structure InputState where
  vpt : ViewportTransform
  spacebarPressed : Bool
  mouseDown : Bool
  lastPosX : Int
  lastPosY : Int
  touchPanLastX : Int
  touchPanLastY : Int
deriving DecidableEq, Repr

namespace InputManager

/-- Spacebar keydown listener (when the pressed key is the space key). -/
def spacebarKeydownHandler (s : InputState) : InputState :=
  { s with spacebarPressed := true }

/-- Spacebar keyup listener (when the released key is the space key). -/
def spacebarKeyupHandler (s : InputState) : InputState :=
  { s with spacebarPressed := false, lastPosX := 0, lastPosY := 0 }

/-- `mouse:down` listener of spacebar panning. -/
def mouseDownHandler (s : InputState) : InputState :=
  { s with mouseDown := true }

/-- `mouse:up` listener of spacebar panning. -/
def mouseUpHandler (s : InputState) : InputState :=
  { s with mouseDown := false, lastPosX := 0, lastPosY := 0 }

/-- `mouse:move` listener of spacebar panning: while the spacebar is held
and the mouse is down, add `movementX + lastPosX` and
`movementY + lastPosY` to the translation components of the viewport
transform and store the current movement in `lastPosX`/`lastPosY`. -/
def mouseMoveHandler (movementX movementY : Int) (s : InputState) : InputState :=
  if !s.spacebarPressed || !s.mouseDown then
    s
  else
    { s with
      vpt := { s.vpt with
        e := s.vpt.e + movementX + s.lastPosX
        f := s.vpt.f + movementY + s.lastPosY }
      lastPosX := movementX
      lastPosY := movementY }

/-- `mouse:wheel` listener of wheel panning: add `deltaX + lastPosX` and
`deltaY + lastPosY` to the translation components and store the current
deltas in the same `lastPosX`/`lastPosY` instance fields that the
spacebar mouse-move handler uses. -/
def mouseWheelHandler (deltaX deltaY : Int) (s : InputState) : InputState :=
  { s with
    vpt := { s.vpt with
      e := s.vpt.e + deltaX + s.lastPosX
      f := s.vpt.f + deltaY + s.lastPosY }
    lastPosX := deltaX
    lastPosY := deltaY }

/-- `ViewportManager.pan(offset)`: add the offset to the translation
components of the viewport transform. -/
def pan (offsetX offsetY : Int) (v : ViewportTransform) : ViewportTransform :=
  { v with e := v.e + offsetX, f := v.f + offsetY }

/-- Hammer `panstart` listener: record the gesture centroid. -/
def panstartHandler (centerX centerY : Int) (s : InputState) : InputState :=
  { s with touchPanLastX := centerX, touchPanLastY := centerY }

/-- Hammer `panmove` listener: return unchanged when an object is active;
otherwise compute the centroid delta since the previous move, apply it via
`ViewportManager.pan` only when both axes are within
`config.touchPanMaxJump`, and record the current centroid in either
case. -/
def panmoveHandler (touchPanMaxJump : Int) (centerX centerY : Int)
    (hasActiveObject : Bool) (s : InputState) : InputState :=
  if hasActiveObject then
    s
  else
    let xChange := centerX - s.touchPanLastX
    let yChange := centerY - s.touchPanLastY
    let s1 : InputState :=
      if |xChange| ≤ touchPanMaxJump ∧ |yChange| ≤ touchPanMaxJump then
        { s with vpt := pan xChange yChange s.vpt }
      else
        s
    { s1 with touchPanLastX := centerX, touchPanLastY := centerY }

end InputManager

/-- The kinds of canvas events fed into the EventManager subjects. -/
inductive CanvasEventKind where
  | added
  | removed
  | modified
  | locked
  | unlocked
  | textChanged
  | selectionChanged
  | historyChanged
  | zoomChanged
  | beforeRender
deriving DecidableEq, Repr

namespace EventManager

/-- Whether an event kind flows into one of the six subjects merged by
`onChange()` (`objectAdded`, `objectRemoved`, `objectModified`,
`objectLocked`, `objectUnlocked`, `textChanged`). -/
def qualifying : CanvasEventKind → Bool
  | .added => true
  | .removed => true
  | .modified => true
  | .locked => true
  | .unlocked => true
  | .textChanged => true
  | .selectionChanged => false
  | .historyChanged => false
  | .zoomChanged => false
  | .beforeRender => false

/-- Trailing-edge debounce over a time-ordered list of event timestamps:
for each event a timer is scheduled at its time plus `d`; an event
arriving strictly before the pending timer fires cancels it, so an
emission happens at `t + d` exactly for those events `t` not followed by
another event within `d`.  This is the semantics of the RxJS
`debounceTime(d)` operator applied in `onChange()`. -/
def debounceEmits (ts : List Nat) (d : Nat) : List Nat :=
  match ts with
  | [] => []
  | [t] => [t + d]
  | t1 :: t2 :: rest =>
    if t2 < t1 + d then
      debounceEmits (t2 :: rest) d
    else
      (t1 + d) :: debounceEmits (t2 :: rest) d

/-- `onChange()`: merge the six mutation subjects (dropping events of the
other channels), debounce by `debounceMs`, and map every emission to the
void payload (`map(() => undefined)`). -/
def onChangeEmits (events : List (Nat × CanvasEventKind)) (debounceMs : Nat) :
    List (Nat × Unit) :=
  (debounceEmits ((events.filter (fun ev => qualifying ev.2)).map Prod.fst) debounceMs).map
    (fun t => (t, ()))

end EventManager

/-- A concrete canvas used to instantiate closed statements. -/
def sampleCanvas : Canvas :=
  { scene := "s0", viewport := { a := 1, b := 0, c := 0, d := 1, e := 0, f := 0 } }

/-- A freshly constructed manager over `sampleCanvas` with the default
`maxSize` of 50. -/
def sampleManager : HistoryManager :=
  (HistoryManager.newManager sampleCanvas 50 0).1

/-- `sampleManager` after one genuine mutation that changed the scene to
`"s1"` and moved the viewport to translation `(7, 8)`. -/
def sampleManagerAfterMutation : HistoryManager :=
  (HistoryManager.handleMutation 1
    { sampleManager with
      canvas := { scene := "s1",
                  viewport := { a := 1, b := 0, c := 0, d := 1, e := 7, f := 8 } } }).1

/-- A concrete input state with identity viewport and all session fields
zeroed. -/
def sampleInput : InputState :=
  { vpt := { a := 1, b := 0, c := 0, d := 1, e := 0, f := 0 }
    spacebarPressed := false
    mouseDown := false
    lastPosX := 0
    lastPosY := 0
    touchPanLastX := 0
    touchPanLastY := 0 }

/-- Claim C7: in every state of the History Engine, `canUndo()` is false
iff `getUndoStackSize() <= 1`, and `canRedo()` is false iff
`getRedoStackSize() == 0`. -/
theorem canUndo_canRedo_consistency (m : HistoryManager) :
    (HistoryManager.canUndo m = false ↔ HistoryManager.getUndoStackSize m ≤ 1) ∧
    (HistoryManager.canRedo m = false ↔ HistoryManager.getRedoStackSize m = 0) := by
  constructor
  · simp [HistoryManager.canUndo, HistoryManager.getUndoStackSize]
  · simp [HistoryManager.canRedo, HistoryManager.getRedoStackSize]

/-- Claim C3: a `saveState()` run with tracking enabled (as every
mutation-triggered one is) leaves the redo stack empty, regardless of its
prior contents. -/
theorem mutation_save_clears_redo (m : HistoryManager) (now : Nat)
    (h1 : m.isUndoing = false) (h2 : m.isRedoing = false) (h3 : m.enabled = true) :
    HistoryManager.getRedoStackSize (HistoryManager.handleMutation now m).1 = 0 := by
  simp [HistoryManager.handleMutation, h1, h2, h3, HistoryManager.saveState,
    HistoryManager.getRedoStackSize]

/-- Witness for C3 at a concrete manager holding a non-empty redo stack. -/
theorem mutation_save_clears_redo_witness :
    HistoryManager.getRedoStackSize
      (HistoryManager.handleMutation 2
        { sampleManager with redoStack := [{ state := "junk", timestamp := 9 }] }).1 = 0 :=
  mutation_save_clears_redo
    { sampleManager with redoStack := [{ state := "junk", timestamp := 9 }] }
    2 rfl rfl rfl

/-- Claim C4: the mutation listeners auto-save exactly when the engine is
idle (neither `isUndoing` nor `isRedoing`) and tracking is enabled; while
an undo or redo restore is in progress (either flag set), or when
disabled, a mutation notification changes nothing and records no
entry. -/
theorem mutation_autosave_only_when_idle (m : HistoryManager) (now : Nat) :
    ((m.isUndoing = true ∨ m.isRedoing = true ∨ m.enabled = false) →
      HistoryManager.handleMutation now m = (m, [])) ∧
    (m.isUndoing = false → m.isRedoing = false → m.enabled = true →
      HistoryManager.handleMutation now m = HistoryManager.saveState now m) := by
  cases hu : m.isUndoing <;> cases hr : m.isRedoing <;> cases he : m.enabled <;>
    simp [HistoryManager.handleMutation, hu, hr, he]

/-- Witness for C4: a mutation event arriving while `isUndoing` is set
leaves the state untouched, and one arriving in the idle enabled state
performs a `saveState`. -/
theorem mutation_autosave_only_when_idle_witness :
    HistoryManager.handleMutation 3 { sampleManager with isUndoing := true } =
      ({ sampleManager with isUndoing := true }, []) ∧
    HistoryManager.handleMutation 3 sampleManager =
      HistoryManager.saveState 3 sampleManager := by
  constructor
  · exact (mutation_autosave_only_when_idle { sampleManager with isUndoing := true } 3).1
      (Or.inl rfl)
  · exact (mutation_autosave_only_when_idle sampleManager 3).2 rfl rfl rfl

/-- Claim C10: `clearHistory()` on a disabled manager leaves both stacks
empty (no baseline reseed, since `saveState` returns early) and still
emits exactly one `history changed {canUndo: false, canRedo: false}`
event; when tracking is enabled (and `maxSize ≥ 1`) the same call reseeds
the undo stack with one fresh baseline snapshot. -/
theorem clearHistory_disabled_no_reseed (m : HistoryManager) (now : Nat) :
    (m.enabled = false →
      HistoryManager.clearHistory now m =
        ({ m with undoStack := [], redoStack := [] },
         [{ canUndo := false, canRedo := false }])) ∧
    (m.enabled = true → 1 ≤ m.maxSize →
      (HistoryManager.clearHistory now m).1.undoStack =
        [{ state := HistoryManager.getCanvasState m, timestamp := now }]) := by
  constructor
  · intro he
    simp [HistoryManager.clearHistory, HistoryManager.saveState, he]
  · intro he hk
    simp [HistoryManager.clearHistory, HistoryManager.saveState, he,
      HistoryManager.getCanvasState]
    omega

/-- Witness for C10: clearing a disabled manager that held entries leaves
both stacks empty with the single `{false, false}` event, and clearing an
enabled one reseeds a single baseline entry. -/
theorem clearHistory_disabled_no_reseed_witness :
    HistoryManager.clearHistory 4
        { sampleManagerAfterMutation with enabled := false } =
      ({ sampleManagerAfterMutation with enabled := false, undoStack := [], redoStack := [] },
       [{ canUndo := false, canRedo := false }]) ∧
    (HistoryManager.clearHistory 4 sampleManagerAfterMutation).1.undoStack =
      [{ state := "s1", timestamp := 4 }] := by
  constructor
  · exact (clearHistory_disabled_no_reseed
      { sampleManagerAfterMutation with enabled := false } 4).1 rfl
  · have h := (clearHistory_disabled_no_reseed sampleManagerAfterMutation 4).2 rfl
      (by decide)
    simpa using h

/-- Claim C1: when `canUndo()` holds, `undo()` pushes the current
serialized scene state onto the redo stack, removes the top entry of the
undo stack, restores the new top (the prior state) into the live scene,
and leaves the live viewport transform at its value at the time of undo;
when `canUndo()` is false, `undo()` is a no-op. -/
theorem undo_restores_previous_state (m : HistoryManager) (now : Nat) :
    (HistoryManager.canUndo m = true →
      (HistoryManager.undo now m).1.redoStack =
        m.redoStack ++ [{ state := HistoryManager.getCanvasState m, timestamp := now }] ∧
      (HistoryManager.undo now m).1.undoStack = m.undoStack.dropLast ∧
      (∃ prev, m.undoStack.dropLast.getLast? = some prev ∧
        (HistoryManager.undo now m).1.canvas.scene = prev.state) ∧
      (HistoryManager.undo now m).1.canvas.viewport = m.canvas.viewport) ∧
    (HistoryManager.canUndo m = false → HistoryManager.undo now m = (m, [])) := by
  constructor
  · intro h
    have hlen : 1 < m.undoStack.length := by
      have := of_decide_eq_true h
      exact this
    have hne : m.undoStack.dropLast ≠ [] := by
      intro hemp
      have : m.undoStack.dropLast.length = 0 := by simp [hemp]
      rw [List.length_dropLast] at this
      omega
    obtain ⟨prev, hprev⟩ : ∃ prev, m.undoStack.dropLast.getLast? = some prev := by
      cases hg : m.undoStack.dropLast.getLast? with
      | none => exact absurd (List.getLast?_eq_none_iff.mp hg) hne
      | some p => exact ⟨p, rfl⟩
    refine ⟨?_, ?_, ⟨prev, hprev, ?_⟩, ?_⟩ <;>
      simp [HistoryManager.undo, h, hprev, HistoryManager.restoreState,
        HistoryManager.getCanvasState]
  · intro h
    simp [HistoryManager.undo, h]

/-- Witness for C1 at `sampleManagerAfterMutation` (undo stack
`[s0, s1]`, scene `s1`, viewport translation `(7, 8)`), and the no-op
case at the freshly constructed `sampleManager`. -/
theorem undo_restores_previous_state_witness :
    ((HistoryManager.undo 2 sampleManagerAfterMutation).1.redoStack =
        sampleManagerAfterMutation.redoStack ++ [{ state := "s1", timestamp := 2 }] ∧
      (HistoryManager.undo 2 sampleManagerAfterMutation).1.canvas.scene = "s0" ∧
      (HistoryManager.undo 2 sampleManagerAfterMutation).1.canvas.viewport =
        { a := 1, b := 0, c := 0, d := 1, e := 7, f := 8 }) ∧
    HistoryManager.undo 2 sampleManager = (sampleManager, []) := by
  constructor
  · have h := (undo_restores_previous_state sampleManagerAfterMutation 2).1 (by decide)
    obtain ⟨h1, _h2, ⟨prev, hprev, hscene⟩, h4⟩ := h
    refine ⟨?_, ?_, ?_⟩
    · simpa using h1
    · have hp : prev = { state := "s0", timestamp := 0 } := by
        have : sampleManagerAfterMutation.undoStack.dropLast.getLast? =
            some { state := "s0", timestamp := 0 } := by decide
        rw [this] at hprev
        exact (Option.some.injEq _ _).mp hprev.symm
      rw [hscene, hp]
    · simpa using h4
  · exact (undo_restores_previous_state sampleManager 2).2 (by decide)

/-- Counterexample to claim C6 as stated: after `destroy()` on a freshly
constructed (enabled) manager, the undo stack is not empty — it holds the
single baseline entry reseeded by the `clearHistory()` that `destroy()`
runs before disabling tracking. -/
theorem destroy_leaves_baseline_entry :
    ¬ HistoryManager.getUndoStackSize (HistoryManager.destroy 1 sampleManager).1 = 0 ∧
    HistoryManager.getUndoStackSize (HistoryManager.destroy 1 sampleManager).1 = 1 := by
  constructor <;> decide

/-- Amended C6: after `destroy()` on an enabled manager with
`maxSize ≥ 1`, the redo stack is empty but the undo stack holds exactly
one reseeded baseline entry (so `getUndoStackSize() == 1`), tracking is
disabled, and — although the canvas mutation listeners are never
detached — every subsequent mutation event is a no-op and adds no history
entry. -/
theorem destroy_reseeds_then_disables (m : HistoryManager) (now : Nat)
    (he : m.enabled = true) (hk : 1 ≤ m.maxSize) :
    HistoryManager.getUndoStackSize (HistoryManager.destroy now m).1 = 1 ∧
    HistoryManager.getRedoStackSize (HistoryManager.destroy now m).1 = 0 ∧
    (HistoryManager.destroy now m).1.enabled = false ∧
    (∀ later, HistoryManager.handleMutation later (HistoryManager.destroy now m).1 =
      ((HistoryManager.destroy now m).1, [])) := by
  have hstep : (HistoryManager.destroy now m).1.enabled = false := by
    simp [HistoryManager.destroy]
  refine ⟨?_, ?_, hstep, ?_⟩
  · have hlt : ¬ m.maxSize < 1 := by omega
    simp [HistoryManager.destroy, HistoryManager.clearHistory, HistoryManager.saveState,
      HistoryManager.getUndoStackSize, he, hlt]
  · simp [HistoryManager.destroy, HistoryManager.clearHistory, HistoryManager.saveState,
      HistoryManager.getRedoStackSize, he]
  · intro later
    simp [HistoryManager.handleMutation, hstep]

/-- Witness for the amended C6 at a destroyed `sampleManagerAfterMutation`. -/
theorem destroy_reseeds_then_disables_witness :
    HistoryManager.getUndoStackSize
      (HistoryManager.destroy 5 sampleManagerAfterMutation).1 = 1 ∧
    HistoryManager.getRedoStackSize
      (HistoryManager.destroy 5 sampleManagerAfterMutation).1 = 0 ∧
    (HistoryManager.destroy 5 sampleManagerAfterMutation).1.enabled = false ∧
    HistoryManager.handleMutation 6 (HistoryManager.destroy 5 sampleManagerAfterMutation).1 =
      ((HistoryManager.destroy 5 sampleManagerAfterMutation).1, []) := by
  have h := destroy_reseeds_then_disables sampleManagerAfterMutation 5 (by decide) (by decide)
  exact ⟨h.1, h.2.1, h.2.2.1, h.2.2.2 6⟩

/-- Counterexample to claim C5 as stated: starting from zeroed session
state, a wheel event with `deltaX = 5` followed by one with `deltaX = 7`
leaves the translation component `e` at `17`, not at the `12` that
adding exactly each event's delta would give — the second event also adds
the previous delta stored in `lastPosX`; moreover that `lastPosX` field is
the very one the spacebar-pan mouse-move handler reads: after the wheel
event with `deltaX = 5` (which left `e = 5`), a spacebar-drag move with
`movementX = 0` adds the stored `5` again, leaving `e = 10` — the two
modes share mutable session state. -/
theorem wheel_pan_shares_state_counterexample :
    (InputManager.mouseWheelHandler 7 0 (InputManager.mouseWheelHandler 5 0 sampleInput)).vpt.e
      = 17 ∧
    ¬ (InputManager.mouseWheelHandler 7 0 (InputManager.mouseWheelHandler 5 0 sampleInput)).vpt.e
      = 12 ∧
    (InputManager.mouseMoveHandler 0 0
      { InputManager.mouseWheelHandler 5 0 sampleInput with
        spacebarPressed := true, mouseDown := true }).vpt.e = 10 := by
  refine ⟨?_, ?_, ?_⟩ <;> decide

/-- Amended C5: every wheel event adds `(deltaX + lastPosX,
deltaY + lastPosY)` to the viewport translation — the event's delta plus
the previously stored one — and then stores `(deltaX, deltaY)` into
`lastPosX`/`lastPosY`; these are the same instance fields the spacebar-pan
mouse-move handler reads and writes (the two pan modes share this mutable
session state), as witnessed by an active spacebar-drag move reading the
value a wheel event stored. -/
theorem wheel_pan_accumulates_shared_state (s : InputState) (dx dy mx my : Int) :
    InputManager.mouseWheelHandler dx dy s =
      { s with
        vpt := { s.vpt with e := s.vpt.e + dx + s.lastPosX, f := s.vpt.f + dy + s.lastPosY }
        lastPosX := dx
        lastPosY := dy } ∧
    (s.spacebarPressed = true → s.mouseDown = true →
      (InputManager.mouseMoveHandler mx my (InputManager.mouseWheelHandler dx dy s)).vpt.e =
        s.vpt.e + dx + s.lastPosX + mx + dx) := by
  constructor
  · simp [InputManager.mouseWheelHandler]
  · intro hs hm
    simp [InputManager.mouseWheelHandler, InputManager.mouseMoveHandler, hs, hm]

/-- Witness for the amended C5 with concrete deltas on an active
spacebar-drag session. -/
theorem wheel_pan_accumulates_shared_state_witness :
    InputManager.mouseWheelHandler 5 0
        { sampleInput with spacebarPressed := true, mouseDown := true } =
      { sampleInput with
        spacebarPressed := true, mouseDown := true
        vpt := { a := 1, b := 0, c := 0, d := 1, e := 5, f := 0 }
        lastPosX := 5, lastPosY := 0 } ∧
    (InputManager.mouseMoveHandler 0 0
      (InputManager.mouseWheelHandler 5 0
        { sampleInput with spacebarPressed := true, mouseDown := true })).vpt.e = 10 := by
  have h := wheel_pan_accumulates_shared_state
    { sampleInput with spacebarPressed := true, mouseDown := true } 5 0 0 0
  constructor
  · have h1 := h.1
    simpa [sampleInput] using h1
  · have h2 := h.2 rfl rfl
    simpa [sampleInput] using h2

/-- Claim C8: on a two-finger pan move with no object selected, the
centroid delta is applied to the viewport transform iff both axes are
within `touchPanMaxJump`; a spike on a single axis suppresses the entire
update (and in every case the stored centroid is advanced). -/
theorem touch_pan_jump_suppression (maxJump centerX centerY : Int) (s : InputState) :
    ((|centerX - s.touchPanLastX| ≤ maxJump ∧ |centerY - s.touchPanLastY| ≤ maxJump) →
      (InputManager.panmoveHandler maxJump centerX centerY false s).vpt =
        InputManager.pan (centerX - s.touchPanLastX) (centerY - s.touchPanLastY) s.vpt) ∧
    (¬ (|centerX - s.touchPanLastX| ≤ maxJump ∧ |centerY - s.touchPanLastY| ≤ maxJump) →
      (InputManager.panmoveHandler maxJump centerX centerY false s).vpt = s.vpt) ∧
    (InputManager.panmoveHandler maxJump centerX centerY false s).touchPanLastX = centerX ∧
    (InputManager.panmoveHandler maxJump centerX centerY false s).touchPanLastY = centerY := by
  refine ⟨?_, ?_, ?_, ?_⟩
  · intro h
    simp [InputManager.panmoveHandler, h]
  · intro h
    simp [InputManager.panmoveHandler, h]
  · simp [InputManager.panmoveHandler]
  · simp [InputManager.panmoveHandler]

/-- Witness for C8: with `maxJumpDistance = 200`, a centroid delta of
`(250, 0)` leaves the viewport transform unchanged, while `(150, 150)` is
applied in full. -/
theorem touch_pan_jump_suppression_witness :
    (InputManager.panmoveHandler 200 250 0 false sampleInput).vpt = sampleInput.vpt ∧
    (InputManager.panmoveHandler 200 150 150 false sampleInput).vpt =
      { a := 1, b := 0, c := 0, d := 1, e := 150, f := 150 } := by
  constructor
  · exact (touch_pan_jump_suppression 200 250 0 sampleInput).2.1
      (by decide)
  · have h := (touch_pan_jump_suppression 200 150 150 sampleInput).1
      (by decide)
    rw [h]
    decide

/-- In a list of event times where each element arrives strictly within
`d` of its predecessor, only the final pending timer survives: the
debounced channel emits exactly once, `d` after the last event. -/
theorem debounceEmits_burst (d : Nat) :
    ∀ (ts : List Nat) (h : ts ≠ []),
      ts.Chain' (fun a b => b < a + d) →
      EventManager.debounceEmits ts d = [ts.getLast h + d] := by
  intro ts
  induction ts with
  | nil => intro h; exact absurd rfl h
  | cons t1 rest ih =>
    intro _ hchain
    cases rest with
    | nil => simp [EventManager.debounceEmits]
    | cons t2 rest2 =>
      have hlt : t2 < t1 + d := (List.chain'_cons.mp hchain).1
      have htail := (List.chain'_cons.mp hchain).2
      have hne : (t2 :: rest2) ≠ [] := by simp
      have := ih hne htail
      simp only [EventManager.debounceEmits, if_pos hlt]
      rw [this]
      congr 1

/-- Claim C9: for a burst of `K ≥ 1` qualifying events (object added,
removed, modified, locked, unlocked or text-changed) each spaced strictly
less than `debounceMs` after the previous one, the aggregate-change
channel `onChange()` fires exactly once, at `debounceMs` after the last
event of the burst, with the void payload. -/
theorem aggregate_change_debounce_collapse (events : List (Nat × CanvasEventKind))
    (debounceMs : Nat) (h : events ≠ [])
    (hq : ∀ ev ∈ events, EventManager.qualifying ev.2 = true)
    (hchain : (events.map Prod.fst).Chain' (fun a b => b < a + debounceMs)) :
    ∃ hne : events.map Prod.fst ≠ [],
      EventManager.onChangeEmits events debounceMs =
        [((events.map Prod.fst).getLast hne + debounceMs, ())] := by
  have hfilter : events.filter (fun ev => EventManager.qualifying ev.2) = events :=
    List.filter_eq_self.mpr hq
  have hne : events.map Prod.fst ≠ [] := by
    simpa using h
  refine ⟨hne, ?_⟩
  rw [EventManager.onChangeEmits, hfilter, debounceEmits_burst debounceMs _ hne hchain]
  rfl

/-- Witness for C9: a burst of three qualifying events at times 0, 500 and
999 with the default `debounceMs = 1000` produces exactly one emission at
time 1999. -/
theorem aggregate_change_debounce_collapse_witness :
    EventManager.onChangeEmits
      [(0, CanvasEventKind.added), (500, CanvasEventKind.modified),
       (999, CanvasEventKind.removed)] 1000 = [(1999, ())] := by
  have h := aggregate_change_debounce_collapse
    [(0, CanvasEventKind.added), (500, CanvasEventKind.modified),
     (999, CanvasEventKind.removed)] 1000 (by decide) (by decide)
    (by simp [List.chain'_cons])
  obtain ⟨hne, heq⟩ := h
  rw [heq]
  rfl

/-- Invariant carried by every reachable `HistoryManager` state: the
configured bound is `k` and the two stacks together never hold more than
`k` entries (undo and redo only move entries between the stacks, and
`saveState` empties the redo stack before pushing). -/
def StackInv (k : Nat) (m : HistoryManager) : Prop :=
  m.maxSize = k ∧ m.undoStack.length + m.redoStack.length ≤ k

/-- `saveState` preserves the stack invariant. -/
theorem saveState_stackInv (k : Nat) (now : Nat) (m : HistoryManager)
    (h : StackInv k m) : StackInv k (HistoryManager.saveState now m).1 := by
  obtain ⟨hk, hlen⟩ := h
  unfold HistoryManager.saveState
  by_cases he : m.enabled
  · simp only [he, if_true]
    refine ⟨hk, ?_⟩
    split <;> rename_i hcond <;>
      simp only [List.length_append, List.length_cons, List.length_nil] at hcond <;>
      simp [List.length_tail] <;> omega
  · simp only [he, if_false]
    exact ⟨hk, hlen⟩

/-- `undo` preserves the stack invariant. -/
theorem undo_stackInv (k : Nat) (now : Nat) (m : HistoryManager)
    (h : StackInv k m) : StackInv k (HistoryManager.undo now m).1 := by
  obtain ⟨hk, hlen⟩ := h
  unfold HistoryManager.undo
  by_cases hc : HistoryManager.canUndo m
  · have hlt : 1 < m.undoStack.length := by
      simpa [HistoryManager.canUndo] using hc
    simp only [hc, if_true]
    cases hg : m.undoStack.dropLast.getLast? <;>
      · refine ⟨hk, ?_⟩
        simp [hg, HistoryManager.restoreState]
        omega
  · simp only [hc, if_false]
    exact ⟨hk, hlen⟩

/-- `redo` preserves the stack invariant. -/
theorem redo_stackInv (k : Nat) (now : Nat) (m : HistoryManager)
    (h : StackInv k m) : StackInv k (HistoryManager.redo now m).1 := by
  obtain ⟨hk, hlen⟩ := h
  unfold HistoryManager.redo
  by_cases hc : HistoryManager.canRedo m
  · have hlt : 0 < m.redoStack.length := by
      simpa [HistoryManager.canRedo] using hc
    simp only [hc, if_true]
    cases hg : m.redoStack.getLast? <;>
      · refine ⟨hk, ?_⟩
        simp [hg, HistoryManager.restoreState]
        omega
  · simp only [hc, if_false]
    exact ⟨hk, hlen⟩

/-- `clearHistory` preserves the stack invariant. -/
theorem clearHistory_stackInv (k : Nat) (now : Nat) (m : HistoryManager)
    (h : StackInv k m) : StackInv k (HistoryManager.clearHistory now m).1 := by
  obtain ⟨hk, _⟩ := h
  unfold HistoryManager.clearHistory
  exact saveState_stackInv k now { m with undoStack := [], redoStack := [] }
    ⟨hk, by simp⟩

/-- Every externally triggerable operation preserves the stack
invariant. -/
theorem applyOp_stackInv (k : Nat) (op : HistoryOp) (m : HistoryManager)
    (h : StackInv k m) : StackInv k (applyOp op m) := by
  cases op with
  | mutation now =>
    show StackInv k (HistoryManager.handleMutation now m).1
    unfold HistoryManager.handleMutation
    split
    · exact saveState_stackInv k now m h
    · exact h
  | save now => exact saveState_stackInv k now m h
  | undoOp now => exact undo_stackInv k now m h
  | redoOp now => exact redo_stackInv k now m h
  | clear now => exact clearHistory_stackInv k now m h
  | enableOp => exact ⟨h.1, h.2⟩
  | disableOp => exact ⟨h.1, h.2⟩
  | destroyOp now =>
    have h2 := clearHistory_stackInv k now m h
    exact ⟨h2.1, h2.2⟩

/-- Running any operation sequence preserves the stack invariant. -/
theorem runOps_stackInv (k : Nat) (ops : List HistoryOp) (m : HistoryManager)
    (h : StackInv k m) : StackInv k (runOps ops m) := by
  induction ops generalizing m with
  | nil => exact h
  | cons op rest ih => exact ih (applyOp op m) (applyOp_stackInv k op m h)

/-- A freshly constructed manager satisfies the stack invariant for its
configured bound. -/
theorem newManager_stackInv (c : Canvas) (k now : Nat) :
    StackInv k (HistoryManager.newManager c k now).1 := by
  unfold HistoryManager.newManager
  exact saveState_stackInv k now _ ⟨rfl, by simp⟩

/-- An enabled `saveState` on a stack within its bound grows the undo
stack to `min (length + 1) maxSize` and keeps `enabled`, `maxSize` and the
canvas unchanged. -/
theorem saveState_length (now : Nat) (m : HistoryManager)
    (he : m.enabled = true) (hle : m.undoStack.length ≤ m.maxSize) :
    (HistoryManager.saveState now m).1.undoStack.length =
      min (m.undoStack.length + 1) m.maxSize ∧
    (HistoryManager.saveState now m).1.enabled = true ∧
    (HistoryManager.saveState now m).1.maxSize = m.maxSize := by
  refine ⟨?_, ?_, ?_⟩
  · unfold HistoryManager.saveState
    simp only [he, if_true]
    split <;> rename_i hcond <;>
      simp only [List.length_append, List.length_cons, List.length_nil] at hcond <;>
      simp [List.length_tail] <;> omega
  · unfold HistoryManager.saveState
    simp [he]
  · unfold HistoryManager.saveState
    simp [he]

/-- Repeated enabled `saveState` calls saturate the undo stack at
`maxSize`. -/
theorem replicate_save_length (t : Nat) :
    ∀ (n : Nat) (m : HistoryManager), m.enabled = true →
      m.undoStack.length ≤ m.maxSize →
      (runOps (List.replicate n (HistoryOp.save t)) m).undoStack.length =
        min (m.undoStack.length + n) m.maxSize ∧
      (runOps (List.replicate n (HistoryOp.save t)) m).maxSize = m.maxSize := by
  intro n
  induction n with
  | zero =>
    intro m he hle
    simp [runOps]
    omega
  | succ n ih =>
    intro m he hle
    have hstep := saveState_length t m he hle
    have hle2 : (HistoryManager.saveState t m).1.undoStack.length ≤
        (HistoryManager.saveState t m).1.maxSize := by
      rw [hstep.1, hstep.2.2]
      omega
    have hrec := ih (HistoryManager.saveState t m).1 hstep.2.1 hle2
    have hrep : List.replicate (n + 1) (HistoryOp.save t) =
        HistoryOp.save t :: List.replicate n (HistoryOp.save t) := rfl
    rw [hrep]
    have hrun : runOps (HistoryOp.save t :: List.replicate n (HistoryOp.save t)) m =
        runOps (List.replicate n (HistoryOp.save t)) (HistoryManager.saveState t m).1 := rfl
    rw [hrun, hrec.1, hrec.2, hstep.1, hstep.2.2]
    constructor
    · omega
    · rfl

/-- Claim C2: starting from a freshly constructed manager with bound `k`,
no sequence of operations ever pushes the undo stack past `k`; an enabled
`saveState` on a full stack (`length = maxSize ≥ 1`) evicts the front
(oldest) entry and appends the new one at the back; and `N > k` saves
leave `getUndoStackSize()` exactly at `k`. -/
theorem undo_stack_bounded (c : Canvas) (k now : Nat) (ops : List HistoryOp) :
    HistoryManager.getUndoStackSize
        (runOps ops (HistoryManager.newManager c k now).1) ≤ k ∧
    (∀ (m : HistoryManager) (t : Nat), m.enabled = true →
      m.undoStack.length = m.maxSize → 1 ≤ m.maxSize →
      (HistoryManager.saveState t m).1.undoStack =
        m.undoStack.tail ++
          [{ state := HistoryManager.getCanvasState m, timestamp := t }]) ∧
    (∀ N : Nat, k < N →
      HistoryManager.getUndoStackSize
        (runOps (List.replicate N (HistoryOp.save now))
          (HistoryManager.newManager c k now).1) = k) := by
  refine ⟨?_, ?_, ?_⟩
  · have h := runOps_stackInv k ops _ (newManager_stackInv c k now)
    have := h.2
    unfold HistoryManager.getUndoStackSize
    omega
  · intro m t he hfull hk
    unfold HistoryManager.saveState
    simp only [he, if_true]
    have hcond : m.maxSize < (m.undoStack ++
        ([{ state := HistoryManager.getCanvasState m, timestamp := t }] :
          List HistoryEntry)).length := by
      simp only [List.length_append, List.length_cons, List.length_nil]
      omega
    simp only [if_pos hcond]
    cases hcase : m.undoStack with
    | nil =>
      rw [hcase] at hfull
      simp at hfull
      omega
    | cons a as => simp
  · intro N hN
    have hinv := newManager_stackInv c k now
    have he : (HistoryManager.newManager c k now).1.enabled = true := by
      unfold HistoryManager.newManager HistoryManager.saveState
      simp
    have hle : (HistoryManager.newManager c k now).1.undoStack.length ≤
        (HistoryManager.newManager c k now).1.maxSize := by
      have := hinv.2
      rw [hinv.1]
      omega
    have h := replicate_save_length now N (HistoryManager.newManager c k now).1 he hle
    unfold HistoryManager.getUndoStackSize
    rw [h.1, hinv.1]
    have hlen1 : (HistoryManager.newManager c k now).1.undoStack.length =
        min 1 k := by
      unfold HistoryManager.newManager
      have hs := saveState_length now
        { canvas := c, undoStack := [], redoStack := [], isUndoing := false,
          isRedoing := false, enabled := true, maxSize := k } rfl (by simp)
      simpa using hs.1
    rw [hlen1]
    omega

/-- A concrete manager whose undo stack is full at its bound of 2. -/
def sampleFullManager : HistoryManager :=
  { canvas := sampleCanvas
    undoStack := [{ state := "a", timestamp := 0 }, { state := "b", timestamp := 1 }]
    redoStack := []
    isUndoing := false
    isRedoing := false
    enabled := true
    maxSize := 2 }

/-- Witness for C2 with bound 2: the bound holds after an operation
sequence mixing mutation, undo and redo; a save on the full
`sampleFullManager` drops its oldest entry; and 3 saves after
construction saturate the stack at 2. -/
theorem undo_stack_bounded_witness :
    HistoryManager.getUndoStackSize
        (runOps [HistoryOp.save 1, HistoryOp.save 2, HistoryOp.undoOp 3,
                 HistoryOp.redoOp 4, HistoryOp.save 5]
          (HistoryManager.newManager sampleCanvas 2 0).1) ≤ 2 ∧
    (HistoryManager.saveState 2 sampleFullManager).1.undoStack =
      ([{ state := "b", timestamp := 1 },
        { state := "s0", timestamp := 2 }] : List HistoryEntry) ∧
    HistoryManager.getUndoStackSize
        (runOps (List.replicate 3 (HistoryOp.save 0))
          (HistoryManager.newManager sampleCanvas 2 0).1) = 2 := by
  have h := undo_stack_bounded sampleCanvas 2 0
    [HistoryOp.save 1, HistoryOp.save 2, HistoryOp.undoOp 3,
     HistoryOp.redoOp 4, HistoryOp.save 5]
  refine ⟨h.1, ?_, h.2.2 3 (by decide)⟩
  have h2 := h.2.1 sampleFullManager 2 rfl (by decide) (by decide)
  simpa [sampleFullManager, HistoryManager.getCanvasState, sampleCanvas] using h2

end FabricKit
